import Mathlib

/-!
Shallow embedding of the event classification and dispatch engine in
src/packit/jobs.py (class SteveJobs, the handler registry and the handler
class declarations). Python dictionaries are modelled by the Val type,
missing-field behaviour by nested_get and getItem, and raised exceptions
by the PyErr error channel of Except. External collaborators (the
configuration fetch and the handler bodies) are abstracted into an Env
record; observable behaviour is returned alongside each result as a trace
of Call events.
-/

/-- Python value tree: the shape of a webhook or fedmsg payload. -/
inductive Val where
  | n : Val
  | b : Bool → Val
  | i : Int → Val
  | s : String → Val
  | list : List Val → Val
  | dict : List (String × Val) → Val


/-- Python truthiness of a value. -/
def truthy : Val → Bool
  | .n => false
  | .b x => x
  | .i x => x != 0
  | .s x => !(x == "")
  | .list l => !l.isEmpty
  | .dict d => !d.isEmpty

/-- First binding of a key in a Python dictionary value. -/
def dictFind : List (String × Val) → String → Option Val
  | [], _ => none
  | (k, v) :: rest, key => if k = key then some v else dictFind rest key

/-- Modelled from the spec: nested_get from packit.utils (not under src).
Null-safe path walking over nested dictionaries, short-circuiting to the
absent value None the moment any intermediate key is missing or the
current value is not a dictionary. -/
def nested_get : Val → List String → Val
  | v, [] => v
  | .dict d, k :: ks =>
    match dictFind d k with
    | some v => nested_get v ks
    | none => .n
  | _, _ :: _ => .n

/-- Python equality comparison of a payload value against a string
literal: true exactly when the value is that string. -/
def isStr (v : Val) (s : String) : Bool :=
  match v with
  | .s t => t == s
  | _ => false

/-- Python exception channel of the embedded code. -/
inductive PyErr where
  | keyError (key : String) : PyErr
  | typeErr : PyErr
  | attrNone : PyErr
  | collab (msg : String) : PyErr
deriving DecidableEq

/-- Direct Python subscript d[k]: KeyError when the key is missing,
TypeError when the value is not a dictionary. -/
def getItem : Val → String → Except PyErr Val
  | .dict d, k =>
    match dictFind d k with
    | some v => .ok v
    | none => .error (.keyError k)
  | _, _ => .error .typeErr

/-- Two chained direct Python subscripts d[k1][k2], as in the html_url
reads of the source (lines 87 and 123). -/
def getItem2 (v : Val) (k1 k2 : String) : Except PyErr Val :=
  match getItem v k1 with
  | .error e => .error e
  | .ok r => getItem r k2

/-- Modelled from the spec: JobTriggerType from packit.config (not under
src), the closed trigger enumeration. -/
inductive JobTriggerType where
  | release
  | pull_request
  | commit
deriving DecidableEq

/-- Modelled from the spec: JobType from packit.config (not under src);
the four values used by the handler classes in src/packit/jobs.py. -/
inductive JobType where
  | sync_from_downstream
  | check_downstream
  | propose_downstream
  | copr_build
deriving DecidableEq

/-- Modelled from the spec: JobConfig from packit.config (not under src),
a declared job pairing one job type with one trigger and metadata. -/
structure JobConfig where
  job : JobType
  trigger : JobTriggerType
  metadata : List (String × Val)

/-- Modelled from the spec: PackageConfig from packit.config (not under
src), the ordered job declarations plus the upstream project url field
that the github classifiers set. -/
structure PackageConfig where
  jobs : List JobConfig
  upstream_project_url : Val

/-- Hosting service kind backing a project handle. -/
inductive Service where
  | github
  | pagure
deriving DecidableEq

/-- Modelled from the spec: an opaque project handle (ogr GitProject),
identified by namespace, repository name and backing service. -/
structure GitProject where
  nspace : Val
  repo : Val
  service : Service

/-- Class-level data of a JobHandler subclass in src/packit/jobs.py: its
JobType name, its declared triggers and, for fedmsg handlers, the topic
attribute (None for plain JobHandler subclasses, matching getattr with a
None default). -/
structure JobHandlerClass where
  name : JobType
  triggers : List JobTriggerType
  topic : Option String
deriving DecidableEq

/-- Handler class NewDistGitCommit from src/packit/jobs.py. -/
def NewDistGitCommit : JobHandlerClass :=
  ⟨.sync_from_downstream, [.commit], some "org.fedoraproject.prod.git.receive"⟩

/-- Handler class GithubPullRequestHandler from src/packit/jobs.py. -/
def GithubPullRequestHandler : JobHandlerClass :=
  ⟨.check_downstream, [.pull_request], none⟩

/-- Handler class GithubReleaseHandler from src/packit/jobs.py. -/
def GithubReleaseHandler : JobHandlerClass :=
  ⟨.propose_downstream, [.release], none⟩

/-- Handler class GithubCoprBuildHandler from src/packit/jobs.py. -/
def GithubCoprBuildHandler : JobHandlerClass :=
  ⟨.copr_build, [.pull_request, .release], none⟩

/-- The handler registry: a Python dictionary from JobType to handler
class, in insertion order. -/
abbrev Registry := List (JobType × JobHandlerClass)

/-- Python dict assignment m[k] = v: replace the binding in place when
the key exists, otherwise append. -/
def dictSet : Registry → JobType → JobHandlerClass → Registry
  | [], k, v => [(k, v)]
  | (k0, v0) :: rest, k, v =>
    if k0 = k then (k, v) :: rest else (k0, v0) :: dictSet rest k v

/-- Function add_to_mapping from src/packit/jobs.py: stores the class in
the mapping under its name attribute. The second component is the list
of warnings the function logs, which is empty in the source. -/
def add_to_mapping (kls : JobHandlerClass) (m : Registry) : Registry × List String :=
  (dictSet m kls.name kls, [])

/-- Python dict.get with default None on the mapping. -/
def lookupReg : Registry → JobType → Option JobHandlerClass
  | [], _ => none
  | (k, v) :: rest, j => if k = j then some v else lookupReg rest j

/-- Python dict.values on the mapping, in insertion order. -/
def regValues : Registry → List JobHandlerClass
  | [] => []
  | (_, v) :: rest => v :: regValues rest

/-- Global JOB_NAME_HANDLER_MAPPING from src/packit/jobs.py, built by the
add_to_mapping decorators in source order. -/
def JOB_NAME_HANDLER_MAPPING : Registry :=
  (add_to_mapping GithubCoprBuildHandler
    (add_to_mapping GithubReleaseHandler
      (add_to_mapping GithubPullRequestHandler
        (add_to_mapping NewDistGitCommit []).1).1).1).1

/-- Observable events of one processing pass: classifier invocations,
collaborator calls and handler executions. -/
inductive Call where
  | classifierRelease : Call
  | classifierPR : Call
  | classifierDistGit : Call
  | getPackitConfig (proj : GitProject) (ref : Val) : Call
  | pagureGetProject (repo nspace : Val) : Call
  | handlerRun (kls : JobHandlerClass) (job : JobConfig) (trigger : JobTriggerType) : Call

/-- External collaborators used by the core: the configuration fetch
get_packit_config_from_repo (packit.config, treated as a collaborator by
the spec) and the body of a constructed handler run method. -/
structure Env where
  get_packit_config_from_repo : GitProject → Val → Except PyErr (Option PackageConfig)
  run : JobHandlerClass → JobConfig → JobTriggerType → Val → GitProject → Except PyErr Unit

/-- Result shape of a successful classification: trigger, the fetched
package configuration (possibly None on the dist-git path) and the
project handle. -/
abbrev JobInput := JobTriggerType × Option PackageConfig × GitProject

/-- Assignment to the upstream_project_url attribute of a configuration. -/
def setUpstreamUrl (pc : PackageConfig) (u : Val) : PackageConfig :=
  ⟨pc.jobs, u⟩

/-- Method SteveJobs.get_job_input_from_github_release from
src/packit/jobs.py. Field checks use nested_get; the html_url read is the
direct subscript of the source (line 87), performed after the
configuration fetch (line 86) and before the attribute assignment
(line 88). -/
def get_job_input_from_github_release (env : Env) (event : Val) :
    Except PyErr (Option JobInput) × List Call :=
  let action := nested_get event ["action"]
  let release := nested_get event ["release"]
  if isStr action "published" = true ∧ truthy release = true then
    let repo_namespace := nested_get event ["repository", "owner", "login"]
    let repo_name := nested_get event ["repository", "name"]
    if ¬(truthy repo_namespace = true ∧ truthy repo_name = true) then (.ok none, [])
    else
      let release_ref := nested_get event ["release", "tag_name"]
      if ¬truthy release_ref = true then (.ok none, [])
      else
        let gh_proj : GitProject := ⟨repo_namespace, repo_name, .github⟩
        match env.get_packit_config_from_repo gh_proj release_ref with
        | .error e => (.error e, [.getPackitConfig gh_proj release_ref])
        | .ok pcOpt =>
          match getItem2 event "repository" "html_url" with
          | .error e => (.error e, [.getPackitConfig gh_proj release_ref])
          | .ok https_url =>
            match pcOpt with
            | none => (.error .attrNone, [.getPackitConfig gh_proj release_ref])
            | some pc =>
              (.ok (some (.release, some (setUpstreamUrl pc https_url), gh_proj)),
               [.getPackitConfig gh_proj release_ref])
  else (.ok none, [])

/-- Method SteveJobs.get_job_input_from_github_pr from
src/packit/jobs.py. Same direct html_url subscript as the release
classifier (line 123). -/
def get_job_input_from_github_pr (env : Env) (event : Val) :
    Except PyErr (Option JobInput) × List Call :=
  let action := nested_get event ["action"]
  let pr_id := nested_get event ["number"]
  let is_pr := nested_get event ["pull_request"]
  if ¬truthy is_pr = true then (.ok none, [])
  else if (isStr action "opened" = true ∨ isStr action "reopened" = true ∨
      isStr action "synchronize" = true) ∧ truthy pr_id = true then
    let repo_namespace := nested_get event ["pull_request", "head", "repo", "owner", "login"]
    let repo_name := nested_get event ["pull_request", "head", "repo", "name"]
    if ¬(truthy repo_namespace = true ∧ truthy repo_name = true) then (.ok none, [])
    else
      let ref := nested_get event ["pull_request", "head", "ref"]
      if ¬truthy ref = true then (.ok none, [])
      else
        let gh_proj : GitProject := ⟨repo_namespace, repo_name, .github⟩
        match env.get_packit_config_from_repo gh_proj ref with
        | .error e => (.error e, [.getPackitConfig gh_proj ref])
        | .ok pcOpt =>
          match getItem2 event "repository" "html_url" with
          | .error e => (.error e, [.getPackitConfig gh_proj ref])
          | .ok https_url =>
            match pcOpt with
            | none => (.error .attrNone, [.getPackitConfig gh_proj ref])
            | some pc =>
              (.ok (some (.pull_request, some (setUpstreamUrl pc https_url), gh_proj)),
               [.getPackitConfig gh_proj ref])
  else (.ok none, [])

/-- Method SteveJobs.get_job_input_from_dist_git_commit from
src/packit/jobs.py. The returned configuration is passed through as the
collaborator produced it, possibly None (line 155). -/
def get_job_input_from_dist_git_commit (env : Env) (event : Val) :
    Except PyErr (Option JobInput) × List Call :=
  let topic := nested_get event ["topic"]
  if isStr topic "org.fedoraproject.prod.git.receive" = true then
    let repo_namespace := nested_get event ["msg", "commit", "namespace"]
    let repo_name := nested_get event ["msg", "commit", "repo"]
    let ref := nested_get event ["msg", "commit", "branch"]
    if ¬(truthy repo_namespace = true ∧ truthy repo_name = true) then (.ok none, [])
    else if ¬truthy ref = true then (.ok none, [])
    else
      let dg_proj : GitProject := ⟨repo_namespace, repo_name, .pagure⟩
      match env.get_packit_config_from_repo dg_proj ref with
      | .error e =>
        (.error e, [.pagureGetProject repo_name repo_namespace, .getPackitConfig dg_proj ref])
      | .ok pcOpt =>
        (.ok (some (.commit, pcOpt, dg_proj)),
         [.pagureGetProject repo_name repo_namespace, .getPackitConfig dg_proj ref])
  else (.ok none, [])

/-- Method SteveJobs.parse_event from src/packit/jobs.py: tries the three
classifiers in order, returning the first non-None result. -/
def parse_event (env : Env) (event : Val) : Except PyErr (Option JobInput) × List Call :=
  if truthy event = true then
    let p1 := get_job_input_from_github_release env event
    let t1 := Call.classifierRelease :: p1.2
    match p1.1 with
    | .error e => (.error e, t1)
    | .ok (some r) => (.ok (some r), t1)
    | .ok none =>
      let p2 := get_job_input_from_github_pr env event
      let t2 := t1 ++ Call.classifierPR :: p2.2
      match p2.1 with
      | .error e => (.error e, t2)
      | .ok (some r) => (.ok (some r), t2)
      | .ok none =>
        let p3 := get_job_input_from_dist_git_commit env event
        let t3 := t2 ++ Call.classifierDistGit :: p3.2
        match p3.1 with
        | .error e => (.error e, t3)
        | .ok (some r) => (.ok (some r), t3)
        | .ok none => (.ok none, t3)
  else (.ok none, [])

/-- Loop body of SteveJobs.process_jobs over the declared job list: a
declaration with a different trigger is skipped, a matching declaration
without a registered handler is logged and skipped, and otherwise the
handler is constructed and run; a raise from run propagates and stops the
iteration. -/
def process_jobs_go (m : Registry) (env : Env) (trigger : JobTriggerType)
    (event : Val) (project : GitProject) : List JobConfig → List Call × Option PyErr
  | [] => ([], none)
  | job :: rest =>
    if trigger = job.trigger then
      match lookupReg m job.job with
      | none => process_jobs_go m env trigger event project rest
      | some kls =>
        match env.run kls job trigger event project with
        | .ok _ =>
          let p := process_jobs_go m env trigger event project rest
          (Call.handlerRun kls job trigger :: p.1, p.2)
        | .error e => ([Call.handlerRun kls job trigger], some e)
    else process_jobs_go m env trigger event project rest

/-- Method SteveJobs.process_jobs from src/packit/jobs.py. -/
def process_jobs (m : Registry) (env : Env) (trigger : JobTriggerType)
    (package_config : PackageConfig) (event : Val) (project : GitProject) :
    List Call × Option PyErr :=
  process_jobs_go m env trigger event project package_config.jobs

/-- Python truthiness of the optional topic argument (None and the empty
string are falsy). -/
def pyTruthyOptStr : Option String → Bool
  | none => false
  | some s => !(s == "")

/-- Method SteveJobs.process_message from src/packit/jobs.py: optional
topic pre-filter, classification, the all() guard on the triple, then
dispatch. The trigger enum member and the project object are always
truthy in Python, so the all() guard reduces to the configuration not
being None. -/
def process_message (m : Registry) (env : Env) (event : Val) (topic : Option String) :
    List Call × Option PyErr :=
  if pyTruthyOptStr topic = true ∧ topic ∉ (regValues m).map JobHandlerClass.topic then
    ([], none)
  else
    match parse_event env event with
    | (.error e, cs) => (cs, some e)
    | (.ok none, cs) => (cs, none)
    | (.ok (some (trg, pcOpt, proj)), cs) =>
      match pcOpt with
      | none => (cs, none)
      | some pc =>
        let p := process_jobs m env trg pc event proj
        (cs ++ p.1, p.2)

/-- Test for a collaborator call in a trace. -/
def isCollabCall : Call → Bool
  | .getPackitConfig _ _ => true
  | .pagureGetProject _ _ => true
  | _ => false

/-- Test for a handler execution in a trace. -/
def isHandlerRunCall : Call → Bool
  | .handlerRun _ _ _ => true
  | _ => false

/-- Whether a trace contains any collaborator call. -/
def hasCollabCall : List Call → Bool
  | [] => false
  | c :: cs => isCollabCall c || hasCollabCall cs

/-- Whether a trace contains any handler execution. -/
def hasHandlerRun : List Call → Bool
  | [] => false
  | c :: cs => isHandlerRunCall c || hasHandlerRun cs

/-- A collaborator error of the configuration fetch. -/
def collabFetchErr (env : Env) (e : PyErr) : Prop :=
  ∃ p r, env.get_packit_config_from_repo p r = Except.error e

/-- The handler-body collaborator always returns normally. -/
def runAlwaysOk (env : Env) : Prop :=
  ∀ kls job trg ev pr, env.run kls job trg ev pr = Except.ok ()

/-- Every declared job whose type has a registered handler pairs it with
a trigger that the handler class declares. -/
def consistentDecls (m : Registry) (pc : PackageConfig) : Prop :=
  ∀ job ∈ pc.jobs, ∀ kls, lookupReg m job.job = some kls → job.trigger ∈ kls.triggers

/-- Every handler execution in a trace uses a trigger the handler class
declares. -/
def runsWithinDeclared (cs : List Call) : Prop :=
  ∀ kls job t, Call.handlerRun kls job t ∈ cs → t ∈ kls.triggers

/-- A concrete empty package configuration used as collaborator output. -/
def pc0 : PackageConfig := ⟨[], .n⟩

/-- Concrete environment whose configuration fetch always succeeds and
whose handler bodies always return normally. -/
def envC : Env := ⟨fun _ _ => .ok (some pc0), fun _ _ _ _ _ => .ok ()⟩

/-- Concrete environment whose configuration fetch returns None, the
project-not-using-packit case. -/
def envNone : Env := ⟨fun _ _ => .ok none, fun _ _ _ _ _ => .ok ()⟩

/-- Concrete release payload whose repository object lacks html_url. -/
def evBad : Val :=
  .dict [("action", .s "published"),
         ("release", .dict [("tag_name", .s "v1")]),
         ("repository", .dict [("owner", .dict [("login", .s "acme")]),
                               ("name", .s "pkg")])]

/-- Concrete payload carrying both the full release field set and the
full pull-request field set, to exercise router priority. -/
def evAmb : Val :=
  .dict [("action", .s "published"),
         ("release", .dict [("tag_name", .s "v1")]),
         ("number", .i 7),
         ("pull_request", .dict [("head", .dict [("ref", .s "branch"),
            ("repo", .dict [("owner", .dict [("login", .s "acme")]),
                            ("name", .s "pkg")])])]),
         ("repository", .dict [("owner", .dict [("login", .s "acme")]),
                               ("name", .s "pkg"),
                               ("html_url", .s "https://github.com/acme/pkg")])]

/-- Concrete dist-git commit message payload without any action field. -/
def evDG : Val :=
  .dict [("topic", .s "org.fedoraproject.prod.git.receive"),
         ("msg", .dict [("commit", .dict [("namespace", .s "rpms"),
                                          ("repo", .s "pkg"),
                                          ("branch", .s "master")])])]

/-- Concrete payload with an unrecognized action and no dist-git topic. -/
def evClosed : Val :=
  .dict [("action", .s "closed"),
         ("number", .i 7),
         ("pull_request", .dict [("head", .dict [("ref", .s "branch")])])]

/-- Concrete declaration of a propose_downstream job on release. -/
def jobA : JobConfig := ⟨.propose_downstream, .release, []⟩

/-- Concrete declaration of a check_downstream job on pull_request. -/
def jobB : JobConfig := ⟨.check_downstream, .pull_request, []⟩

/-- Concrete declaration of a copr_build job on release. -/
def jobC : JobConfig := ⟨.copr_build, .release, []⟩

/-- Concrete configuration holding the three example declarations. -/
def pcEx : PackageConfig := ⟨[jobA, jobB, jobC], .n⟩

/-- Concrete declaration pairing propose_downstream with pull_request,
a trigger outside the declared list of its handler class. -/
def jobBad : JobConfig := ⟨.propose_downstream, .pull_request, []⟩

/-- Concrete configuration holding only the mismatched declaration. -/
def pcBad : PackageConfig := ⟨[jobBad], .n⟩

/-- Concrete raw event used where dispatch ignores its content. -/
def evC : Val := .dict []

/-- Concrete project handle used where dispatch ignores its content. -/
def prC : GitProject := ⟨.s "acme", .s "pkg", .github⟩

/-- Registry built without GithubReleaseHandler, leaving the
propose_downstream job type without a handler. -/
def mappingNoRelease : Registry :=
  (add_to_mapping GithubCoprBuildHandler
    (add_to_mapping GithubPullRequestHandler
      (add_to_mapping NewDistGitCommit []).1).1).1

/-- A second handler class with the same name as GithubCoprBuildHandler,
used to exercise duplicate registration. -/
def duplicateCoprHandler : JobHandlerClass := ⟨.copr_build, [.release], none⟩

/-- A payload on which a one-step-deeper nested_get produced something is
a non-empty dictionary, hence truthy. -/
theorem truthy_of_nested_get (v : Val) (k : String) (ks : List String)
    (h : nested_get v (k :: ks) ≠ Val.n) : truthy v = true := by
  cases v with
  | dict d =>
    cases d with
    | nil => simp [nested_get, dictFind] at h
    | cons hd tl => simp [truthy, List.isEmpty]
  | n => simp [nested_get] at h
  | b x => simp [nested_get] at h
  | i x => simp [nested_get] at h
  | s x => simp [nested_get] at h
  | list l => simp [nested_get] at h

/-- Calls made by the release classifier are collaborator calls. -/
theorem release_calls_collab (env : Env) (event : Val) :
    ∀ c ∈ (get_job_input_from_github_release env event).2, isCollabCall c = true := by
  intro c hc
  unfold get_job_input_from_github_release at hc
  simp only [] at hc
  by_cases h1 : isStr (nested_get event ["action"]) "published" = true ∧
      truthy (nested_get event ["release"]) = true
  · rw [if_pos h1] at hc
    by_cases h2 : ¬(truthy (nested_get event ["repository", "owner", "login"]) = true ∧
        truthy (nested_get event ["repository", "name"]) = true)
    · rw [if_pos h2] at hc
      simp at hc
    · rw [if_neg h2] at hc
      by_cases h3 : ¬truthy (nested_get event ["release", "tag_name"]) = true
      · rw [if_pos h3] at hc
        simp at hc
      · rw [if_neg h3] at hc
        revert hc
        generalize env.get_packit_config_from_repo
            ⟨nested_get event ["repository", "owner", "login"],
             nested_get event ["repository", "name"], Service.github⟩
            (nested_get event ["release", "tag_name"]) = res
        generalize getItem2 event "repository" "html_url" = resUrl
        cases res with
        | error e =>
          intro hc
          simp at hc
          simp [hc, isCollabCall]
        | ok pcOpt =>
          cases resUrl with
          | error e =>
            intro hc
            simp at hc
            simp [hc, isCollabCall]
          | ok url =>
            cases pcOpt with
            | none =>
              intro hc
              simp at hc
              simp [hc, isCollabCall]
            | some pc =>
              intro hc
              simp at hc
              simp [hc, isCollabCall]
  · rw [if_neg h1] at hc
    simp at hc

/-- Calls made by the pull-request classifier are collaborator calls. -/
theorem pr_calls_collab (env : Env) (event : Val) :
    ∀ c ∈ (get_job_input_from_github_pr env event).2, isCollabCall c = true := by
  intro c hc
  unfold get_job_input_from_github_pr at hc
  simp only [] at hc
  by_cases h0 : ¬truthy (nested_get event ["pull_request"]) = true
  · rw [if_pos h0] at hc
    simp at hc
  · rw [if_neg h0] at hc
    by_cases h1 : (isStr (nested_get event ["action"]) "opened" = true ∨
        isStr (nested_get event ["action"]) "reopened" = true ∨
        isStr (nested_get event ["action"]) "synchronize" = true) ∧
        truthy (nested_get event ["number"]) = true
    · rw [if_pos h1] at hc
      by_cases h2 : ¬(truthy (nested_get event ["pull_request", "head", "repo", "owner", "login"]) = true ∧
          truthy (nested_get event ["pull_request", "head", "repo", "name"]) = true)
      · rw [if_pos h2] at hc
        simp at hc
      · rw [if_neg h2] at hc
        by_cases h3 : ¬truthy (nested_get event ["pull_request", "head", "ref"]) = true
        · rw [if_pos h3] at hc
          simp at hc
        · rw [if_neg h3] at hc
          revert hc
          generalize env.get_packit_config_from_repo
              ⟨nested_get event ["pull_request", "head", "repo", "owner", "login"],
               nested_get event ["pull_request", "head", "repo", "name"], Service.github⟩
              (nested_get event ["pull_request", "head", "ref"]) = res
          generalize getItem2 event "repository" "html_url" = resUrl
          cases res with
          | error e =>
            intro hc
            simp at hc
            simp [hc, isCollabCall]
          | ok pcOpt =>
            cases resUrl with
            | error e =>
              intro hc
              simp at hc
              simp [hc, isCollabCall]
            | ok url =>
              cases pcOpt with
              | none =>
                intro hc
                simp at hc
                simp [hc, isCollabCall]
              | some pc =>
                intro hc
                simp at hc
                simp [hc, isCollabCall]
    · rw [if_neg h1] at hc
      simp at hc

/-- Calls made by the dist-git classifier are collaborator calls. -/
theorem distgit_calls_collab (env : Env) (event : Val) :
    ∀ c ∈ (get_job_input_from_dist_git_commit env event).2, isCollabCall c = true := by
  intro c hc
  unfold get_job_input_from_dist_git_commit at hc
  simp only [] at hc
  by_cases h1 : isStr (nested_get event ["topic"]) "org.fedoraproject.prod.git.receive" = true
  · rw [if_pos h1] at hc
    by_cases h2 : ¬(truthy (nested_get event ["msg", "commit", "namespace"]) = true ∧
        truthy (nested_get event ["msg", "commit", "repo"]) = true)
    · rw [if_pos h2] at hc
      simp at hc
    · rw [if_neg h2] at hc
      by_cases h3 : ¬truthy (nested_get event ["msg", "commit", "branch"]) = true
      · rw [if_pos h3] at hc
        simp at hc
      · rw [if_neg h3] at hc
        revert hc
        generalize env.get_packit_config_from_repo
            ⟨nested_get event ["msg", "commit", "namespace"],
             nested_get event ["msg", "commit", "repo"], Service.pagure⟩
            (nested_get event ["msg", "commit", "branch"]) = res
        cases res with
        | error e =>
          intro hc
          simp at hc
          rcases hc with hc | hc <;> simp [hc, isCollabCall]
        | ok pcOpt =>
          intro hc
          simp at hc
          rcases hc with hc | hc <;> simp [hc, isCollabCall]
  · rw [if_neg h1] at hc
    simp at hc

/-- Absence of collaborator calls, elementwise. -/
theorem hasCollabCall_eq_false (cs : List Call) :
    hasCollabCall cs = false ↔ ∀ c ∈ cs, isCollabCall c = false := by
  induction cs with
  | nil => simp [hasCollabCall]
  | cons c rest ih => simp [hasCollabCall, ih]

/-- Absence of handler executions, elementwise. -/
theorem hasHandlerRun_eq_false (cs : List Call) :
    hasHandlerRun cs = false ↔ ∀ c ∈ cs, isHandlerRunCall c = false := by
  induction cs with
  | nil => simp [hasHandlerRun]
  | cons c rest ih => simp [hasHandlerRun, ih]

/-- A collaborator call is not a handler execution. -/
theorem collab_not_handler (c : Call) (h : isCollabCall c = true) :
    isHandlerRunCall c = false := by
  cases c <;> simp_all [isCollabCall, isHandlerRunCall]

/-- The trace of the router contains no handler execution: classifiers
only invoke collaborators. -/
theorem parse_event_no_handler (env : Env) (event : Val) :
    hasHandlerRun (parse_event env event).2 = false := by
  rw [hasHandlerRun_eq_false]
  intro c hc
  unfold parse_event at hc
  by_cases he : truthy event = true
  · rw [if_pos he] at hc
    simp only [] at hc
    split at hc
    · simp [List.mem_cons] at hc
      rcases hc with hc | hc
      · simp [hc, isHandlerRunCall]
      · exact collab_not_handler c (release_calls_collab env event c hc)
    · simp [List.mem_cons] at hc
      rcases hc with hc | hc
      · simp [hc, isHandlerRunCall]
      · exact collab_not_handler c (release_calls_collab env event c hc)
    · split at hc
      · simp [List.mem_cons, List.mem_append] at hc
        rcases hc with hc | hc | hc | hc
        · simp [hc, isHandlerRunCall]
        · exact collab_not_handler c (release_calls_collab env event c hc)
        · simp [hc, isHandlerRunCall]
        · exact collab_not_handler c (pr_calls_collab env event c hc)
      · simp [List.mem_cons, List.mem_append] at hc
        rcases hc with hc | hc | hc | hc
        · simp [hc, isHandlerRunCall]
        · exact collab_not_handler c (release_calls_collab env event c hc)
        · simp [hc, isHandlerRunCall]
        · exact collab_not_handler c (pr_calls_collab env event c hc)
      · split at hc
        all_goals
          simp [List.mem_cons, List.mem_append] at hc
          rcases hc with hc | hc | hc | hc | hc | hc
          · simp [hc, isHandlerRunCall]
          · exact collab_not_handler c (release_calls_collab env event c hc)
          · simp [hc, isHandlerRunCall]
          · exact collab_not_handler c (pr_calls_collab env event c hc)
          · simp [hc, isHandlerRunCall]
          · exact collab_not_handler c (distgit_calls_collab env event c hc)
  · rw [if_neg he] at hc
    simp at hc

/-- Closed form of the dispatch loop when no handler body fails: the
declarations are filtered by trigger in order, missing handlers are
skipped, and each surviving declaration yields one handler execution. -/
theorem process_jobs_go_eq (m : Registry) (env : Env) (trg : JobTriggerType)
    (ev : Val) (pr : GitProject) (h : runAlwaysOk env) (jobs : List JobConfig) :
    process_jobs_go m env trg ev pr jobs =
      (jobs.filterMap (fun job => if trg = job.trigger then
          (lookupReg m job.job).map (fun kls => Call.handlerRun kls job trg) else none),
       none) := by
  induction jobs with
  | nil => rfl
  | cons job rest ih =>
    rw [List.filterMap_cons]
    unfold process_jobs_go
    by_cases ht : trg = job.trigger
    · rw [if_pos ht, if_pos ht]
      cases hl : lookupReg m job.job with
      | none => simp [ih]
      | some kls =>
        dsimp only
        rw [h kls job trg ev pr]
        simp [ih]
    · rw [if_neg ht, if_neg ht]
      exact ih

/-- Every handler execution in a dispatch trace comes from a declared job
whose trigger matched and whose handler was found in the registry. -/
theorem mem_process_jobs_go (m : Registry) (env : Env) (trg : JobTriggerType)
    (ev : Val) (pr : GitProject) (jobs : List JobConfig)
    (kls : JobHandlerClass) (job : JobConfig) (t : JobTriggerType)
    (hmem : Call.handlerRun kls job t ∈ (process_jobs_go m env trg ev pr jobs).1) :
    job ∈ jobs ∧ t = trg ∧ trg = job.trigger ∧ lookupReg m job.job = some kls := by
  induction jobs with
  | nil => simp [process_jobs_go] at hmem
  | cons j rest ih =>
    unfold process_jobs_go at hmem
    by_cases ht : trg = j.trigger
    · rw [if_pos ht] at hmem
      cases hl : lookupReg m j.job with
      | none =>
        rw [hl] at hmem
        dsimp only at hmem
        have hrec := ih hmem
        exact ⟨List.mem_cons_of_mem j hrec.1, hrec.2⟩
      | some k2 =>
        rw [hl] at hmem
        dsimp only at hmem
        cases hr : env.run k2 j trg ev pr with
        | ok u =>
          rw [hr] at hmem
          dsimp only at hmem
          simp only [List.mem_cons] at hmem
          rcases hmem with hmem | hmem
          · have h1 : kls = k2 ∧ job = j ∧ t = trg := by
              simpa [Call.handlerRun.injEq] using hmem
            refine ⟨by simp [h1.2.1], h1.2.2, ?_, ?_⟩
            · rw [h1.2.1]
              exact ht
            · rw [h1.2.1, hl, h1.1]
          · have hrec := ih hmem
            exact ⟨List.mem_cons_of_mem j hrec.1, hrec.2⟩
        | error e =>
          rw [hr] at hmem
          dsimp only at hmem
          simp only [List.mem_singleton] at hmem
          have h1 : kls = k2 ∧ job = j ∧ t = trg := by
            simpa [Call.handlerRun.injEq] using hmem
          refine ⟨by simp [h1.2.1], h1.2.2, ?_, ?_⟩
          · rw [h1.2.1]
            exact ht
          · rw [h1.2.1, hl, h1.1]
    · rw [if_neg ht] at hmem
      have hrec := ih hmem
      exact ⟨List.mem_cons_of_mem j hrec.1, hrec.2⟩

/-- Looking up the key just assigned returns the assigned value. -/
theorem lookupReg_dictSet_self (m : Registry) (k : JobType) (v : JobHandlerClass) :
    lookupReg (dictSet m k v) k = some v := by
  induction m with
  | nil => simp [dictSet, lookupReg]
  | cons p rest ih =>
    obtain ⟨k0, v0⟩ := p
    by_cases hk : k0 = k
    · simp [dictSet, hk, lookupReg]
    · simp [dictSet, hk, lookupReg, ih]

/-- C4: for every classified trigger and configuration, process_jobs
invokes exactly the handlers of the declared jobs whose trigger equals
the classified trigger, in declaration order (those with a registered
handler), and invokes no handler for a declaration whose trigger
differs. -/
theorem thm_C4 (m : Registry) (env : Env) (trg : JobTriggerType)
    (pc : PackageConfig) (ev : Val) (pr : GitProject) (h : runAlwaysOk env) :
    (process_jobs m env trg pc ev pr).1 =
      pc.jobs.filterMap (fun job => if trg = job.trigger then
        (lookupReg m job.job).map (fun kls => Call.handlerRun kls job trg) else none) ∧
    ∀ kls job t, Call.handlerRun kls job t ∈ (process_jobs m env trg pc ev pr).1 →
      trg = job.trigger := by
  constructor
  · show (process_jobs_go m env trg ev pr pc.jobs).1 = _
    rw [process_jobs_go_eq m env trg ev pr h pc.jobs]
  · intro kls job t hm
    exact (mem_process_jobs_go m env trg ev pr pc.jobs kls job t hm).2.2.1

/-- Witness for C4: with the three example declarations and the full
registry, dispatching the Release trigger runs exactly the handlers of
the first and third declarations, in that order. -/
theorem thm_C4_witness :
    runAlwaysOk envC ∧
    (process_jobs JOB_NAME_HANDLER_MAPPING envC .release pcEx evC prC).1 =
      [Call.handlerRun GithubReleaseHandler jobA .release,
       Call.handlerRun GithubCoprBuildHandler jobC .release] := by
  have hr : runAlwaysOk envC := fun _ _ _ _ _ => rfl
  exact ⟨hr,
    ((thm_C4 JOB_NAME_HANDLER_MAPPING envC .release pcEx evC prC hr).1).trans (by rfl)⟩

/-- C5: a declared job whose JobType has no registered handler is
non-fatal: dispatch continues, so a later matching declaration with a
registered handler is still invoked, and no error is produced. -/
theorem thm_C5 (m : Registry) (env : Env) (trg : JobTriggerType) (ev : Val)
    (pr : GitProject) (url : Val) (jobFirst : JobConfig) (rest : List JobConfig)
    (kls : JobHandlerClass) (jobLater : JobConfig)
    (h : runAlwaysOk env)
    (hmiss : lookupReg m jobFirst.job = none)
    (hmem : jobLater ∈ rest)
    (htrig : trg = jobLater.trigger)
    (hfound : lookupReg m jobLater.job = some kls) :
    Call.handlerRun kls jobLater trg ∈
      (process_jobs m env trg ⟨jobFirst :: rest, url⟩ ev pr).1 ∧
    (process_jobs m env trg ⟨jobFirst :: rest, url⟩ ev pr).2 = none := by
  have he := process_jobs_go_eq m env trg ev pr h (jobFirst :: rest)
  constructor
  · show Call.handlerRun kls jobLater trg ∈
      (process_jobs_go m env trg ev pr (jobFirst :: rest)).1
    rw [he]
    dsimp only
    exact List.mem_filterMap.mpr ⟨jobLater, List.mem_cons_of_mem jobFirst hmem,
      by rw [if_pos htrig, hfound]; rfl⟩
  · show (process_jobs_go m env trg ev pr (jobFirst :: rest)).2 = none
    rw [he]

/-- Witness for C5: with GithubReleaseHandler unregistered, the first
declaration has no handler, yet the copr_build declaration later in the
list is still dispatched. -/
theorem thm_C5_witness :
    runAlwaysOk envC ∧
    lookupReg mappingNoRelease jobA.job = none ∧
    Call.handlerRun GithubCoprBuildHandler jobC .release ∈
      (process_jobs mappingNoRelease envC .release ⟨jobA :: [jobB, jobC], .n⟩ evC prC).1 := by
  have hr : runAlwaysOk envC := fun _ _ _ _ _ => rfl
  refine ⟨hr, rfl, ?_⟩
  exact (thm_C5 mappingNoRelease envC .release evC prC .n jobA [jobB, jobC]
    GithubCoprBuildHandler jobC hr rfl (by simp) rfl rfl).1

/-- C6 counterexample: with the full registry of the source and a
declaration pairing propose_downstream with the pull_request trigger,
the GithubReleaseHandler is constructed and run for pull_request, a
trigger outside its declared triggers list. -/
theorem thm_C6_counterexample :
    Call.handlerRun GithubReleaseHandler jobBad .pull_request ∈
      (process_jobs JOB_NAME_HANDLER_MAPPING envC .pull_request pcBad evC prC).1 ∧
    JobTriggerType.pull_request ∉ GithubReleaseHandler.triggers := by
  constructor
  · have ht : (process_jobs JOB_NAME_HANDLER_MAPPING envC .pull_request pcBad evC prC).1 =
        [Call.handlerRun GithubReleaseHandler jobBad .pull_request] := rfl
    rw [ht]
    exact List.mem_singleton_self _
  · decide

/-- C6 amended: process_jobs matches on the declaration trigger only and
never consults the handler class triggers list; a handler therefore runs
only for triggers in its declared list provided every declaration maps
its job type to a handler class declaring that declaration trigger. -/
theorem thm_C6 (m : Registry) (env : Env) (trg : JobTriggerType)
    (pc : PackageConfig) (ev : Val) (pr : GitProject)
    (hcons : consistentDecls m pc) :
    runsWithinDeclared (process_jobs m env trg pc ev pr).1 := by
  intro kls job t hm
  have h := mem_process_jobs_go m env trg ev pr pc.jobs kls job t hm
  have hj := hcons job h.1 kls h.2.2.2
  rw [h.2.1, h.2.2.1]
  exact hj

/-- Witness for C6: the example configuration is consistent with the
full registry, so every handler execution stays within declared
triggers. -/
theorem thm_C6_witness :
    consistentDecls JOB_NAME_HANDLER_MAPPING pcEx ∧
    runsWithinDeclared (process_jobs JOB_NAME_HANDLER_MAPPING envC .release pcEx evC prC).1 := by
  have hcons : consistentDecls JOB_NAME_HANDLER_MAPPING pcEx := by
    intro job hj kls hk
    simp only [pcEx] at hj
    fin_cases hj
    · have h2 : GithubReleaseHandler = kls := Option.some.inj hk
      rw [← h2]
      decide
    · have h2 : GithubPullRequestHandler = kls := Option.some.inj hk
      rw [← h2]
      decide
    · have h2 : GithubCoprBuildHandler = kls := Option.some.inj hk
      rw [← h2]
      decide
  exact ⟨hcons, thm_C6 JOB_NAME_HANDLER_MAPPING envC .release pcEx evC prC hcons⟩

/-- C9 counterexample: registering a second handler class for a JobType
already in the mapping logs nothing and silently replaces the earlier
registration. -/
theorem thm_C9_counterexample :
    (add_to_mapping duplicateCoprHandler (add_to_mapping GithubCoprBuildHandler []).1).2 = [] ∧
    lookupReg (add_to_mapping duplicateCoprHandler
        (add_to_mapping GithubCoprBuildHandler []).1).1 JobType.copr_build =
      some duplicateCoprHandler ∧
    duplicateCoprHandler ≠ GithubCoprBuildHandler := by
  refine ⟨rfl, rfl, ?_⟩
  decide

/-- C9 amended: duplicate registration of a JobType silently overwrites:
lookup afterwards returns the later registration and add_to_mapping logs
no warning and raises no failure. -/
theorem thm_C9 (k1 k2 : JobHandlerClass) (m : Registry) (hname : k1.name = k2.name) :
    lookupReg (add_to_mapping k2 (add_to_mapping k1 m).1).1 k1.name = some k2 ∧
    (add_to_mapping k2 (add_to_mapping k1 m).1).2 = [] := by
  constructor
  · unfold add_to_mapping
    dsimp only
    rw [hname]
    exact lookupReg_dictSet_self _ _ _
  · rfl

/-- Witness for C9 amended: re-registering copr_build makes lookup
return the second handler class with an empty warning list. -/
theorem thm_C9_witness :
    GithubCoprBuildHandler.name = duplicateCoprHandler.name ∧
    lookupReg (add_to_mapping duplicateCoprHandler
        (add_to_mapping GithubCoprBuildHandler []).1).1 GithubCoprBuildHandler.name =
      some duplicateCoprHandler ∧
    (add_to_mapping duplicateCoprHandler
        (add_to_mapping GithubCoprBuildHandler []).1).2 = [] := by
  have h : GithubCoprBuildHandler.name = duplicateCoprHandler.name := rfl
  exact ⟨h, thm_C9 GithubCoprBuildHandler duplicateCoprHandler [] h⟩

/-- Errors of a single direct subscript are a KeyError for the accessed
key or a TypeError. -/
theorem getItem_error_shape (v : Val) (k : String) (e : PyErr)
    (h : getItem v k = Except.error e) : e = .keyError k ∨ e = .typeErr := by
  cases v with
  | dict d =>
    unfold getItem at h
    dsimp only at h
    revert h
    generalize dictFind d k = o
    cases o with
    | none =>
      intro h
      exact Or.inl (Except.error.inj h).symm
    | some w =>
      intro h
      exact Except.noConfusion h
  | n => exact Or.inr (Except.error.inj h).symm
  | b x => exact Or.inr (Except.error.inj h).symm
  | i x => exact Or.inr (Except.error.inj h).symm
  | s x => exact Or.inr (Except.error.inj h).symm
  | list l => exact Or.inr (Except.error.inj h).symm

/-- Errors of the chained repository html_url subscript are a KeyError
for one of the two keys or a TypeError. -/
theorem getItem2_error_shape (v : Val) (e : PyErr)
    (h : getItem2 v "repository" "html_url" = Except.error e) :
    e = .keyError "repository" ∨ e = .typeErr ∨ e = .keyError "html_url" := by
  unfold getItem2 at h
  revert h
  generalize hg : getItem v "repository" = res
  cases res with
  | error e1 =>
    intro h
    dsimp only at h
    have he := Except.error.inj h
    rcases getItem_error_shape v "repository" e1 hg with h1 | h1
    · exact Or.inl (he ▸ h1)
    · exact Or.inr (Or.inl (he ▸ h1))
  | ok r =>
    intro h
    dsimp only at h
    rcases getItem_error_shape r "html_url" e h with h1 | h1
    · exact Or.inr (Or.inr h1)
    · exact Or.inr (Or.inl h1)

/-- C2 counterexample: on a published release payload whose repository
object lacks html_url, the release classifier raises a KeyError even
though the collaborator configuration fetch succeeds. -/
theorem thm_C2_counterexample :
    nested_get evBad ["repository", "html_url"] = Val.n ∧
    (get_job_input_from_github_release envC evBad).1 =
      Except.error (PyErr.keyError "html_url") := ⟨rfl, by rfl⟩

/-- C2 amended: the nested_get field checks fail softly, so a classifier
error is either a propagated collaborator error from the configuration
fetch, or one of the raises of the direct repository html_url subscript
performed after a successful match (KeyError or TypeError), or the
AttributeError hit when the fetched configuration is None. -/
theorem thm_C2 (env : Env) (event : Val) (e : PyErr)
    (herr : (get_job_input_from_github_release env event).1 = Except.error e ∨
      (get_job_input_from_github_pr env event).1 = Except.error e ∨
      (get_job_input_from_dist_git_commit env event).1 = Except.error e) :
    collabFetchErr env e ∨ e = .keyError "html_url" ∨ e = .keyError "repository" ∨
      e = .typeErr ∨ e = .attrNone := by
  rcases herr with h | h | h
  · unfold get_job_input_from_github_release at h
    simp only [] at h
    by_cases h1 : isStr (nested_get event ["action"]) "published" = true ∧
        truthy (nested_get event ["release"]) = true
    · rw [if_pos h1] at h
      by_cases h2 : ¬(truthy (nested_get event ["repository", "owner", "login"]) = true ∧
          truthy (nested_get event ["repository", "name"]) = true)
      · rw [if_pos h2] at h
        exact Except.noConfusion h
      · rw [if_neg h2] at h
        by_cases h3 : ¬truthy (nested_get event ["release", "tag_name"]) = true
        · rw [if_pos h3] at h
          exact Except.noConfusion h
        · rw [if_neg h3] at h
          revert h
          generalize hg : env.get_packit_config_from_repo
              ⟨nested_get event ["repository", "owner", "login"],
               nested_get event ["repository", "name"], Service.github⟩
              (nested_get event ["release", "tag_name"]) = res
          generalize hu : getItem2 event "repository" "html_url" = resUrl
          cases res with
          | error e1 =>
            intro h
            dsimp only at h
            have he := Except.error.inj h
            exact Or.inl ⟨_, _, he ▸ hg⟩
          | ok pcOpt =>
            cases resUrl with
            | error e1 =>
              intro h
              dsimp only at h
              have he := Except.error.inj h
              rcases getItem2_error_shape event e1 hu with h4 | h4 | h4
              · exact Or.inr (Or.inr (Or.inl (he ▸ h4)))
              · exact Or.inr (Or.inr (Or.inr (Or.inl (he ▸ h4))))
              · exact Or.inr (Or.inl (he ▸ h4))
            | ok url =>
              cases pcOpt with
              | none =>
                intro h
                dsimp only at h
                have he := Except.error.inj h
                exact Or.inr (Or.inr (Or.inr (Or.inr he.symm)))
              | some pc =>
                intro h
                dsimp only at h
                exact Except.noConfusion h
    · rw [if_neg h1] at h
      exact Except.noConfusion h
  · unfold get_job_input_from_github_pr at h
    simp only [] at h
    by_cases h0 : ¬truthy (nested_get event ["pull_request"]) = true
    · rw [if_pos h0] at h
      exact Except.noConfusion h
    · rw [if_neg h0] at h
      by_cases h1 : (isStr (nested_get event ["action"]) "opened" = true ∨
          isStr (nested_get event ["action"]) "reopened" = true ∨
          isStr (nested_get event ["action"]) "synchronize" = true) ∧
          truthy (nested_get event ["number"]) = true
      · rw [if_pos h1] at h
        by_cases h2 : ¬(truthy (nested_get event
            ["pull_request", "head", "repo", "owner", "login"]) = true ∧
            truthy (nested_get event ["pull_request", "head", "repo", "name"]) = true)
        · rw [if_pos h2] at h
          exact Except.noConfusion h
        · rw [if_neg h2] at h
          by_cases h3 : ¬truthy (nested_get event ["pull_request", "head", "ref"]) = true
          · rw [if_pos h3] at h
            exact Except.noConfusion h
          · rw [if_neg h3] at h
            revert h
            generalize hg : env.get_packit_config_from_repo
                ⟨nested_get event ["pull_request", "head", "repo", "owner", "login"],
                 nested_get event ["pull_request", "head", "repo", "name"], Service.github⟩
                (nested_get event ["pull_request", "head", "ref"]) = res
            generalize hu : getItem2 event "repository" "html_url" = resUrl
            cases res with
            | error e1 =>
              intro h
              dsimp only at h
              have he := Except.error.inj h
              exact Or.inl ⟨_, _, he ▸ hg⟩
            | ok pcOpt =>
              cases resUrl with
              | error e1 =>
                intro h
                dsimp only at h
                have he := Except.error.inj h
                rcases getItem2_error_shape event e1 hu with h4 | h4 | h4
                · exact Or.inr (Or.inr (Or.inl (he ▸ h4)))
                · exact Or.inr (Or.inr (Or.inr (Or.inl (he ▸ h4))))
                · exact Or.inr (Or.inl (he ▸ h4))
              | ok url =>
                cases pcOpt with
                | none =>
                  intro h
                  dsimp only at h
                  have he := Except.error.inj h
                  exact Or.inr (Or.inr (Or.inr (Or.inr he.symm)))
                | some pc =>
                  intro h
                  dsimp only at h
                  exact Except.noConfusion h
      · rw [if_neg h1] at h
        exact Except.noConfusion h
  · unfold get_job_input_from_dist_git_commit at h
    simp only [] at h
    by_cases h1 : isStr (nested_get event ["topic"]) "org.fedoraproject.prod.git.receive" = true
    · rw [if_pos h1] at h
      by_cases h2 : ¬(truthy (nested_get event ["msg", "commit", "namespace"]) = true ∧
          truthy (nested_get event ["msg", "commit", "repo"]) = true)
      · rw [if_pos h2] at h
        exact Except.noConfusion h
      · rw [if_neg h2] at h
        by_cases h3 : ¬truthy (nested_get event ["msg", "commit", "branch"]) = true
        · rw [if_pos h3] at h
          exact Except.noConfusion h
        · rw [if_neg h3] at h
          revert h
          generalize hg : env.get_packit_config_from_repo
              ⟨nested_get event ["msg", "commit", "namespace"],
               nested_get event ["msg", "commit", "repo"], Service.pagure⟩
              (nested_get event ["msg", "commit", "branch"]) = res
          cases res with
          | error e1 =>
            intro h
            dsimp only at h
            have he := Except.error.inj h
            exact Or.inl ⟨_, _, he ▸ hg⟩
          | ok pcOpt =>
            intro h
            dsimp only at h
            exact Except.noConfusion h
    · rw [if_neg h1] at h
      exact Except.noConfusion h

/-- Witness for C2 amended: the KeyError raised on the html_url-less
release payload falls into the described error taxonomy. -/
theorem thm_C2_witness :
    ((get_job_input_from_github_release envC evBad).1 =
        Except.error (PyErr.keyError "html_url") ∨
      (get_job_input_from_github_pr envC evBad).1 =
        Except.error (PyErr.keyError "html_url") ∨
      (get_job_input_from_dist_git_commit envC evBad).1 =
        Except.error (PyErr.keyError "html_url")) ∧
    (collabFetchErr envC (PyErr.keyError "html_url") ∨
      PyErr.keyError "html_url" = .keyError "html_url" ∨
      PyErr.keyError "html_url" = .keyError "repository" ∨
      PyErr.keyError "html_url" = .typeErr ∨
      PyErr.keyError "html_url" = .attrNone) := by
  have hh : (get_job_input_from_github_release envC evBad).1 =
      Except.error (PyErr.keyError "html_url") ∨
      (get_job_input_from_github_pr envC evBad).1 =
        Except.error (PyErr.keyError "html_url") ∨
      (get_job_input_from_dist_git_commit envC evBad).1 =
        Except.error (PyErr.keyError "html_url") := Or.inl (by rfl)
  exact ⟨hh, thm_C2 envC evBad (PyErr.keyError "html_url") hh⟩

/-- Characterization of the string comparison test. -/
theorem isStr_eq_true_iff (v : Val) (s : String) : isStr v s = true ↔ v = Val.s s := by
  cases v <;> simp [isStr]

/-- Failing the string comparison test is exactly being a different
value. -/
theorem isStr_eq_false_iff (v : Val) (s : String) : isStr v s = false ↔ v ≠ Val.s s := by
  constructor
  · intro h hv
    rw [hv] at h
    simp [isStr] at h
  · intro h
    cases hh : isStr v s
    · rfl
    · exact absurd ((isStr_eq_true_iff v s).mp hh) h

/-- C1: parse_event tries the classifiers in the order release,
pull-request, commit-push, returns the first non-None result without
invoking any later classifier, and returns None for a falsy event or
when no classifier matches; an event matched by the release classifier
routes to the release result even if it also carries the pull-request
fields. -/
theorem thm_C1 :
    (∀ env event, truthy event = false → parse_event env event = (Except.ok none, [])) ∧
    (∀ env event r, truthy event = true →
      (get_job_input_from_github_release env event).1 = Except.ok (some r) →
      (parse_event env event).1 = Except.ok (some r) ∧
      Call.classifierPR ∉ (parse_event env event).2 ∧
      Call.classifierDistGit ∉ (parse_event env event).2) ∧
    (∀ env event r, truthy event = true →
      (get_job_input_from_github_release env event).1 = Except.ok none →
      (get_job_input_from_github_pr env event).1 = Except.ok (some r) →
      (parse_event env event).1 = Except.ok (some r) ∧
      Call.classifierDistGit ∉ (parse_event env event).2) ∧
    (∀ env event, truthy event = true →
      (get_job_input_from_github_release env event).1 = Except.ok none →
      (get_job_input_from_github_pr env event).1 = Except.ok none →
      (parse_event env event).1 = (get_job_input_from_dist_git_commit env event).1) := by
  refine ⟨?_, ?_, ?_, ?_⟩
  · intro env event he
    unfold parse_event
    rw [if_neg (by simp [he])]
  · intro env event r he hrel
    unfold parse_event
    rw [if_pos he]
    simp only []
    rw [hrel]
    dsimp only
    refine ⟨rfl, ?_, ?_⟩
    · intro hmem
      rcases List.mem_cons.mp hmem with hm | hm
      · exact Call.noConfusion hm
      · have hcol := release_calls_collab env event _ hm
        simp [isCollabCall] at hcol
    · intro hmem
      rcases List.mem_cons.mp hmem with hm | hm
      · exact Call.noConfusion hm
      · have hcol := release_calls_collab env event _ hm
        simp [isCollabCall] at hcol
  · intro env event r he hrel hpr
    unfold parse_event
    rw [if_pos he]
    simp only []
    rw [hrel, hpr]
    dsimp only
    refine ⟨rfl, ?_⟩
    intro hmem
    rcases List.mem_append.mp hmem with hm | hm
    · rcases List.mem_cons.mp hm with hm | hm
      · exact Call.noConfusion hm
      · have hcol := release_calls_collab env event _ hm
        simp [isCollabCall] at hcol
    · rcases List.mem_cons.mp hm with hm | hm
      · exact Call.noConfusion hm
      · have hcol := pr_calls_collab env event _ hm
        simp [isCollabCall] at hcol
  · intro env event he hrel hpr
    unfold parse_event
    rw [if_pos he]
    simp only []
    rw [hrel, hpr]
    dsimp only
    generalize (get_job_input_from_dist_git_commit env event).1 = res
    cases res with
    | error e => rfl
    | ok o => cases o <;> rfl

/-- Witness for C1: a payload carrying both the release and the
pull-request minimal field sets routes to the release result and the
pull-request and dist-git classifiers are never invoked. -/
theorem thm_C1_witness :
    (truthy evAmb = true ∧
     (get_job_input_from_github_release envC evAmb).1 =
       Except.ok (some (.release,
         some (setUpstreamUrl pc0 (Val.s "https://github.com/acme/pkg")),
         ⟨Val.s "acme", Val.s "pkg", .github⟩)) ∧
     truthy (nested_get evAmb ["pull_request"]) = true ∧
     truthy (nested_get evAmb ["number"]) = true ∧
     truthy (nested_get evAmb ["pull_request", "head", "repo", "owner", "login"]) = true ∧
     truthy (nested_get evAmb ["pull_request", "head", "repo", "name"]) = true ∧
     truthy (nested_get evAmb ["pull_request", "head", "ref"]) = true) ∧
    ((parse_event envC evAmb).1 =
       Except.ok (some (.release,
         some (setUpstreamUrl pc0 (Val.s "https://github.com/acme/pkg")),
         ⟨Val.s "acme", Val.s "pkg", .github⟩)) ∧
     Call.classifierPR ∉ (parse_event envC evAmb).2 ∧
     Call.classifierDistGit ∉ (parse_event envC evAmb).2) := by
  refine ⟨⟨rfl, rfl, rfl, rfl, rfl, rfl, rfl⟩, ?_⟩
  exact thm_C1.2.1 envC evAmb _ rfl rfl

/-- C3: on a well-formed published release payload the router returns
the Release trigger, the configuration fetched at the release tag with
its upstream url set to repository html_url, and the github project
handle built from the repository identity. -/
theorem thm_C3 (env : Env) (event ns nm tag url : Val) (pc : PackageConfig)
    (ha : nested_get event ["action"] = Val.s "published")
    (hr : truthy (nested_get event ["release"]) = true)
    (hns : nested_get event ["repository", "owner", "login"] = ns)
    (hnst : truthy ns = true)
    (hnm : nested_get event ["repository", "name"] = nm)
    (hnmt : truthy nm = true)
    (htag : nested_get event ["release", "tag_name"] = tag)
    (htagt : truthy tag = true)
    (hurl : getItem2 event "repository" "html_url" = Except.ok url)
    (hpc : env.get_packit_config_from_repo ⟨ns, nm, .github⟩ tag = Except.ok (some pc)) :
    (parse_event env event).1 =
      Except.ok (some (.release, some (setUpstreamUrl pc url), ⟨ns, nm, .github⟩)) ∧
    (setUpstreamUrl pc url).upstream_project_url = url ∧
    Call.getPackitConfig ⟨ns, nm, .github⟩ tag ∈ (parse_event env event).2 := by
  have hev : truthy event = true :=
    truthy_of_nested_get event "action" []
      (by rw [ha]; exact fun hcon => Val.noConfusion hcon)
  have hrel : get_job_input_from_github_release env event =
      (Except.ok (some (.release, some (setUpstreamUrl pc url), ⟨ns, nm, .github⟩)),
       [Call.getPackitConfig ⟨ns, nm, .github⟩ tag]) := by
    unfold get_job_input_from_github_release
    simp only []
    rw [hns, hnm, htag]
    rw [if_pos ⟨by rw [ha]; rfl, hr⟩]
    rw [if_neg (not_not_intro ⟨hnst, hnmt⟩)]
    rw [if_neg (not_not_intro htagt)]
    rw [hpc]
    dsimp only
    rw [hurl]
  refine ⟨?_, rfl, ?_⟩
  · unfold parse_event
    rw [if_pos hev]
    simp only []
    rw [hrel]
  · unfold parse_event
    rw [if_pos hev]
    simp only []
    rw [hrel]
    dsimp only
    exact List.mem_cons_of_mem _ (List.mem_singleton_self _)

/-- Witness for C3: the concrete published release payload yields the
Release triple with the upstream url taken from repository html_url. -/
theorem thm_C3_witness :
    (nested_get evAmb ["action"] = Val.s "published" ∧
     getItem2 evAmb "repository" "html_url" = Except.ok (Val.s "https://github.com/acme/pkg") ∧
     envC.get_packit_config_from_repo ⟨Val.s "acme", Val.s "pkg", .github⟩ (Val.s "v1") =
       Except.ok (some pc0)) ∧
    ((parse_event envC evAmb).1 =
       Except.ok (some (.release,
         some (setUpstreamUrl pc0 (Val.s "https://github.com/acme/pkg")),
         ⟨Val.s "acme", Val.s "pkg", .github⟩)) ∧
     (setUpstreamUrl pc0 (Val.s "https://github.com/acme/pkg")).upstream_project_url =
       Val.s "https://github.com/acme/pkg" ∧
     Call.getPackitConfig ⟨Val.s "acme", Val.s "pkg", .github⟩ (Val.s "v1") ∈
       (parse_event envC evAmb).2) := by
  refine ⟨⟨rfl, rfl, rfl⟩, ?_⟩
  exact thm_C3 envC evAmb (Val.s "acme") (Val.s "pkg") (Val.s "v1")
    (Val.s "https://github.com/acme/pkg") pc0 rfl rfl rfl rfl rfl rfl rfl rfl rfl rfl

/-- C7 counterexample: a dist-git bus payload has no action field at
all, yet the router matches it through the commit classifier and the
collaborators are called. -/
theorem thm_C7_counterexample :
    nested_get evDG ["action"] = Val.n ∧
    (parse_event envC evDG).1 =
      Except.ok (some (.commit, some pc0, ⟨Val.s "rpms", Val.s "pkg", .pagure⟩)) ∧
    hasCollabCall (parse_event envC evDG).2 = true := ⟨rfl, rfl, rfl⟩

/-- C7 amended: for an event whose action is absent or outside the
recognized sets and whose topic is not the dist-git commit topic, the
router returns no match and no collaborator is called. -/
theorem thm_C7 (env : Env) (event : Val)
    (ha1 : nested_get event ["action"] ≠ Val.s "published")
    (ha2 : nested_get event ["action"] ≠ Val.s "opened")
    (ha3 : nested_get event ["action"] ≠ Val.s "reopened")
    (ha4 : nested_get event ["action"] ≠ Val.s "synchronize")
    (ht : nested_get event ["topic"] ≠ Val.s "org.fedoraproject.prod.git.receive") :
    (parse_event env event).1 = Except.ok none ∧
    hasCollabCall (parse_event env event).2 = false := by
  have hb1 := (isStr_eq_false_iff (nested_get event ["action"]) "published").mpr ha1
  have hb2 := (isStr_eq_false_iff (nested_get event ["action"]) "opened").mpr ha2
  have hb3 := (isStr_eq_false_iff (nested_get event ["action"]) "reopened").mpr ha3
  have hb4 := (isStr_eq_false_iff (nested_get event ["action"]) "synchronize").mpr ha4
  have hbt := (isStr_eq_false_iff (nested_get event ["topic"])
    "org.fedoraproject.prod.git.receive").mpr ht
  have hrel : get_job_input_from_github_release env event = (Except.ok none, []) := by
    unfold get_job_input_from_github_release
    simp only []
    rw [if_neg (by simp [hb1])]
  have hpr : get_job_input_from_github_pr env event = (Except.ok none, []) := by
    unfold get_job_input_from_github_pr
    simp only []
    by_cases hp : ¬truthy (nested_get event ["pull_request"]) = true
    · rw [if_pos hp]
    · rw [if_neg hp]
      rw [if_neg (by simp [hb2, hb3, hb4])]
  have hdg : get_job_input_from_dist_git_commit env event = (Except.ok none, []) := by
    unfold get_job_input_from_dist_git_commit
    simp only []
    rw [if_neg (by simp [hbt])]
  by_cases hev : truthy event = true
  · unfold parse_event
    rw [if_pos hev]
    simp only []
    rw [hrel, hpr, hdg]
    exact ⟨rfl, rfl⟩
  · unfold parse_event
    rw [if_neg hev]
    exact ⟨rfl, rfl⟩

/-- Witness for C7 amended: a closed pull-request payload with action
closed and no topic is rejected with zero collaborator calls. -/
theorem thm_C7_witness :
    (nested_get evClosed ["action"] ≠ Val.s "published" ∧
     nested_get evClosed ["action"] ≠ Val.s "opened" ∧
     nested_get evClosed ["action"] ≠ Val.s "reopened" ∧
     nested_get evClosed ["action"] ≠ Val.s "synchronize" ∧
     nested_get evClosed ["topic"] ≠ Val.s "org.fedoraproject.prod.git.receive") ∧
    ((parse_event envC evClosed).1 = Except.ok none ∧
     hasCollabCall (parse_event envC evClosed).2 = false) := by
  have h1 : nested_get evClosed ["action"] ≠ Val.s "published" :=
    fun h => absurd (Val.s.inj h) (by decide)
  have h2 : nested_get evClosed ["action"] ≠ Val.s "opened" :=
    fun h => absurd (Val.s.inj h) (by decide)
  have h3 : nested_get evClosed ["action"] ≠ Val.s "reopened" :=
    fun h => absurd (Val.s.inj h) (by decide)
  have h4 : nested_get evClosed ["action"] ≠ Val.s "synchronize" :=
    fun h => absurd (Val.s.inj h) (by decide)
  have h5 : nested_get evClosed ["topic"] ≠ Val.s "org.fedoraproject.prod.git.receive" :=
    fun h => Val.noConfusion h
  exact ⟨⟨h1, h2, h3, h4, h5⟩, thm_C7 envC evClosed h1 h2 h3 h4 h5⟩

/-- C8: a non-empty topic that no registered handler class declares
makes process_message drop the event before any classification work:
the trace is empty and no error is produced. -/
theorem thm_C8 (m : Registry) (env : Env) (event : Val) (t : String)
    (hne : t ≠ "")
    (hmem : (some t) ∉ (regValues m).map JobHandlerClass.topic) :
    process_message m env event (some t) = ([], none) := by
  unfold process_message
  rw [if_pos ⟨by simp [pyTruthyOptStr, hne], hmem⟩]

/-- Witness for C8: an unrelated topic is dropped by the full registry
with an empty trace. -/
theorem thm_C8_witness :
    ("unrelated.topic" ≠ "" ∧
     (some "unrelated.topic") ∉ (regValues JOB_NAME_HANDLER_MAPPING).map JobHandlerClass.topic) ∧
    process_message JOB_NAME_HANDLER_MAPPING envC evAmb (some "unrelated.topic") = ([], none) := by
  have h1 : "unrelated.topic" ≠ "" := by decide
  have h2 : (some "unrelated.topic") ∉
      (regValues JOB_NAME_HANDLER_MAPPING).map JobHandlerClass.topic := by decide
  exact ⟨⟨h1, h2⟩, thm_C8 JOB_NAME_HANDLER_MAPPING envC evAmb "unrelated.topic" h1 h2⟩

/-- C10: when classification yields a triple whose configuration
component is None, process_message returns without constructing or
running any handler. -/
theorem thm_C10 (m : Registry) (env : Env) (event : Val) (topic : Option String)
    (trg : JobTriggerType) (proj : GitProject)
    (hcls : (parse_event env event).1 = Except.ok (some (trg, none, proj))) :
    hasHandlerRun (process_message m env event topic).1 = false := by
  unfold process_message
  by_cases hdrop : pyTruthyOptStr topic = true ∧
      topic ∉ (regValues m).map JobHandlerClass.topic
  · rw [if_pos hdrop]
    rfl
  · rw [if_neg hdrop]
    rw [show parse_event env event =
      (Except.ok (some (trg, none, proj)), (parse_event env event).2) from
      Prod.ext hcls rfl]
    dsimp only
    exact parse_event_no_handler env event

/-- Witness for C10: a dist-git payload for a project whose
configuration fetch returns None is classified but never dispatched. -/
theorem thm_C10_witness :
    (parse_event envNone evDG).1 =
      Except.ok (some (.commit, none, ⟨Val.s "rpms", Val.s "pkg", .pagure⟩)) ∧
    hasHandlerRun (process_message JOB_NAME_HANDLER_MAPPING envNone evDG none).1 = false := by
  have h : (parse_event envNone evDG).1 =
      Except.ok (some (.commit, none, ⟨Val.s "rpms", Val.s "pkg", .pagure⟩)) := rfl
  exact ⟨h, thm_C10 JOB_NAME_HANDLER_MAPPING envNone evDG none .commit
    ⟨Val.s "rpms", Val.s "pkg", .pagure⟩ h⟩
